import Mathlib

/-!
Verification of the FlexSDR DPDK transport substrate (dev-uhd-dpdk).

Shallow embedding of the packet codec (tx_worker.cpp / flexsdr_tx_streamer.cpp
/ rx_worker.hpp), the RX demux worker (rx_worker.cpp), the TX streamer staging
and flush logic (flexsdr_tx_streamer.cpp), ring creation (flexsdr_primary.cpp),
EAL argument building (eal_bootstrap.cpp) and name materialization
(config_params.cpp).  Buffers are lists of byte values (Nat, < 256 in range);
machine integers are Nat with explicit truncation where the source casts.
-/

namespace FlexSDR

/-- Byte of a buffer at index i, 0 when out of range (buffers model contiguous
mbuf data; reads in the source are always in range). -/
def byteAt (xs : List Nat) (i : Nat) : Nat := (xs[i]?).getD 0

/-- Big-endian 4-byte encoding of a 32-bit value, as written by htonl +
memcpy in the source. -/
def be32 (v : Nat) : List Nat :=
  [v / 2 ^ 24 % 256, v / 2 ^ 16 % 256, v / 2 ^ 8 % 256, v % 256]

/-- Big-endian 8-byte encoding of a 64-bit value, as written by htobe64 +
memcpy in the source. -/
def be64 (v : Nat) : List Nat :=
  [v / 2 ^ 56 % 256, v / 2 ^ 48 % 256, v / 2 ^ 40 % 256, v / 2 ^ 32 % 256,
   v / 2 ^ 24 % 256, v / 2 ^ 16 % 256, v / 2 ^ 8 % 256, v % 256]

/-- Overwrite bytes [off, off + bs.length) of buf with bs (memcpy into an
existing buffer at an offset). -/
def writeBytesAt (buf : List Nat) (off : Nat) (bs : List Nat) : List Nat :=
  buf.take off ++ bs ++ buf.drop (off + bs.length)

/-- Contiguous byte slice [off, off + len) of a buffer. -/
def sliceBytes (xs : List Nat) (off len : Nat) : List Nat :=
  (xs.drop off).take len

/-- load_u32_be from rx_worker.hpp: big-endian 32-bit read at a byte offset. -/
def load_u32_be (xs : List Nat) (off : Nat) : Nat :=
  ((byteAt xs off * 256 + byteAt xs (off + 1)) * 256 + byteAt xs (off + 2)) * 256
    + byteAt xs (off + 3)

/-- load_u64_be from rx_worker.hpp: (load_u32_be p << 32) | load_u32_be (p+4). -/
def load_u64_be (xs : List Nat) (off : Nat) : Nat :=
  load_u32_be xs off * 2 ^ 32 + load_u32_be xs (off + 4)

/-- write_vrt_minimal from flexsdr_tx_streamer.cpp: zero the header, write the
total length in 32-bit words (truncated to u32 as in the source cast) at
[0..4) BE, the stream id at [4..8) BE, and, when the header is at least 32
bytes, the timestamp at [24..32) BE. -/
def write_vrt_minimal (hdr_bytes stream_id tsf_ticks payload_bytes : Nat) :
    List Nat :=
  let z := List.replicate hdr_bytes 0
  let words := (hdr_bytes + payload_bytes + 3) / 4 % 2 ^ 32
  let b1 := writeBytesAt z 0 (be32 words)
  let b2 := writeBytesAt b1 4 (be32 stream_id)
  if 32 ≤ hdr_bytes then writeBytesAt b2 24 (be64 tsf_ticks) else b2

/-- write_vrt from tx_worker.cpp: same field writes into a caller-supplied
header buffer (no memset; the reserved region keeps the buffer's bytes), with
the timestamp at tsf_offset when it fits in the header. -/
def write_vrt (buf : List Nat) (hdr_bytes stream_id tsf_ticks payload_bytes
    tsf_offset : Nat) : List Nat :=
  let words := (hdr_bytes + payload_bytes + 3) / 4 % 2 ^ 32
  let b1 := writeBytesAt buf 0 (be32 words)
  let b2 := writeBytesAt b1 4 (be32 stream_id)
  if tsf_offset + 8 ≤ hdr_bytes then writeBytesAt b2 tsf_offset (be64 tsf_ticks)
  else b2

/-- Decoded view of one packet, as filled by parse_vrt_sc16_packet
(rx_worker.hpp); iq holds the raw payload bytes (the source memcpy is
byte-identical into the int16 vector). -/
structure ParsedPacket where
  stream_id : Nat
  have_tsf : Bool
  tsf_ticks : Nat
  nsamps : Nat
  iq : List Nat
  deriving Repr, DecidableEq

/-- parse_vrt_sc16_packet from rx_worker.hpp: fail when the packet is shorter
than the header; read the stream id at [4..8) BE when at least 8 bytes are
present; read the timestamp at tsf_offset BE when requested and it fits;
fail when the payload size is not a multiple of 4; copy the payload. -/
def parse_vrt_sc16_packet (hdr_bytes tsf_offset : Nat) (tsf_present : Bool)
    (pkt : List Nat) : Option ParsedPacket :=
  if pkt.length < hdr_bytes then none
  else
    let sid := if 8 ≤ pkt.length then load_u32_be pkt 4 else 0
    let ht := tsf_present && decide (tsf_offset + 8 ≤ pkt.length)
    let tt := if ht then load_u64_be pkt tsf_offset else 0
    let payload_bytes := pkt.length - hdr_bytes
    if payload_bytes % 4 ≠ 0 then none
    else some ⟨sid, ht, tt, payload_bytes / 4, pkt.drop hdr_bytes⟩

-- ------------------------- byte-level lemmas --------------------------------

theorem length_writeBytesAt (buf : List Nat) (off : Nat) (bs : List Nat)
    (h : off + bs.length ≤ buf.length) :
    (writeBytesAt buf off bs).length = buf.length := by
  simp [writeBytesAt]
  omega

theorem sliceBytes_writeBytesAt_self (buf : List Nat) (off : Nat)
    (bs : List Nat) (h : off + bs.length ≤ buf.length) :
    sliceBytes (writeBytesAt buf off bs) off bs.length = bs := by
  have h1 : (buf.take off).length = off := by
    simp [List.length_take]; omega
  have h2 : writeBytesAt buf off bs
      = buf.take off ++ (bs ++ buf.drop (off + bs.length)) := by
    simp [writeBytesAt]
  rw [sliceBytes, h2, List.drop_left' h1, List.take_left' rfl]

theorem sliceBytes_writeBytesAt_left (buf : List Nat) (off : Nat)
    (bs : List Nat) (o2 l2 : Nat) (h : o2 + l2 ≤ off) (hoff : off ≤ buf.length) :
    sliceBytes (writeBytesAt buf off bs) o2 l2 = sliceBytes buf o2 l2 := by
  have h1 : (buf.take off).length = off := by
    simp [List.length_take]; omega
  rw [sliceBytes, sliceBytes, writeBytesAt, List.append_assoc,
    List.drop_append_eq_append_drop, List.take_append_eq_append_take]
  have h3 : ((buf.take off).drop o2).length = off - o2 := by
    simp [List.length_drop, h1]
  rw [h1, h3]
  have h4 : l2 - (off - o2) = 0 := by omega
  have h5 : o2 - off = 0 := by omega
  rw [h4, h5, List.take_zero, List.append_nil]
  rw [List.drop_take, List.take_take]
  have h6 : min l2 (off - o2) = l2 := by omega
  rw [h6]

theorem sliceBytes_append_left (l r : List Nat) (off len : Nat)
    (h : off + len ≤ l.length) :
    sliceBytes (l ++ r) off len = sliceBytes l off len := by
  rw [sliceBytes, sliceBytes, List.drop_append_eq_append_drop]
  have h5 : off - l.length = 0 := by omega
  rw [h5, List.drop_zero, List.take_append_eq_append_take]
  have h6 : (l.drop off).length = l.length - off := by simp
  have h7 : len - (l.drop off).length = 0 := by omega
  rw [h7, List.take_zero, List.append_nil]

theorem byteAt_sliceBytes (xs : List Nat) (off len i : Nat) (hi : i < len) :
    byteAt (sliceBytes xs off len) i = byteAt xs (off + i) := by
  simp [byteAt, sliceBytes, List.getElem?_take, hi, List.getElem?_drop]

theorem load_u32_be_of_slice (xs : List Nat) (off v : Nat)
    (hs : sliceBytes xs off 4 = be32 v) (hv : v < 2 ^ 32) :
    load_u32_be xs off = v := by
  have h0 : byteAt xs (off + 0) = v / 2 ^ 24 % 256 := by
    rw [← byteAt_sliceBytes xs off 4 0 (by omega), hs]; simp [byteAt, be32]
  have h1 : byteAt xs (off + 1) = v / 2 ^ 16 % 256 := by
    rw [← byteAt_sliceBytes xs off 4 1 (by omega), hs]; simp [byteAt, be32]
  have h2 : byteAt xs (off + 2) = v / 2 ^ 8 % 256 := by
    rw [← byteAt_sliceBytes xs off 4 2 (by omega), hs]; simp [byteAt, be32]
  have h3 : byteAt xs (off + 3) = v % 256 := by
    rw [← byteAt_sliceBytes xs off 4 3 (by omega), hs]; simp [byteAt, be32]
  rw [load_u32_be, show off = off + 0 from rfl] at *
  rw [h0, h1, h2, h3]
  omega

theorem length_be32 (v : Nat) : (be32 v).length = 4 := rfl

theorem length_be64 (v : Nat) : (be64 v).length = 8 := rfl

theorem be64_split (v : Nat) :
    be64 v = be32 (v / 2 ^ 32) ++ be32 (v % 2 ^ 32) := by
  simp only [be64, be32, Nat.div_div_eq_div_mul, List.cons_append,
    List.nil_append]
  norm_num
  omega

theorem load_u64_be_of_slice (xs : List Nat) (off v : Nat)
    (hs : sliceBytes xs off 8 = be64 v) (hv : v < 2 ^ 64) :
    load_u64_be xs off = v := by
  have hs1 : sliceBytes xs off 4 = be32 (v / 2 ^ 32) := by
    have : sliceBytes xs off 4 = (sliceBytes xs off 8).take 4 := by
      simp [sliceBytes, List.take_take]
    rw [this, hs, be64_split, List.take_left' (length_be32 _)]
  have hs2 : sliceBytes xs (off + 4) 4 = be32 (v % 2 ^ 32) := by
    have : sliceBytes xs (off + 4) 4 = (sliceBytes xs off 8).drop 4 := by
      simp [sliceBytes, List.drop_take, List.drop_drop, Nat.add_comm]
    rw [this, hs, be64_split, List.drop_left' (length_be32 _)]
  rw [load_u64_be,
    load_u32_be_of_slice xs off (v / 2 ^ 32) hs1 (by omega),
    load_u32_be_of_slice xs (off + 4) (v % 2 ^ 32) hs2 (by omega)]
  omega

-- -------------------- header layout facts (C2 support) ---------------------

theorem write_vrt_minimal_32 (sid tsf pb : Nat) :
    write_vrt_minimal 32 sid tsf pb
      = writeBytesAt (writeBytesAt (writeBytesAt (List.replicate 32 0) 0
          (be32 ((32 + pb + 3) / 4 % 2 ^ 32))) 4 (be32 sid)) 24 (be64 tsf) := by
  simp [write_vrt_minimal]

theorem write_vrt_32 (buf : List Nat) (sid tsf pb : Nat) :
    write_vrt buf 32 sid tsf pb 24
      = writeBytesAt (writeBytesAt (writeBytesAt buf 0
          (be32 ((32 + pb + 3) / 4 % 2 ^ 32))) 4 (be32 sid)) 24 (be64 tsf) := by
  simp [write_vrt]

theorem vrt_header_slices (buf : List Nat) (sid tsf pb : Nat)
    (hlen : buf.length = 32) :
    let hdr := writeBytesAt (writeBytesAt (writeBytesAt buf 0
      (be32 ((32 + pb + 3) / 4 % 2 ^ 32))) 4 (be32 sid)) 24 (be64 tsf)
    hdr.length = 32
    ∧ sliceBytes hdr 0 4 = be32 ((32 + pb + 3) / 4 % 2 ^ 32)
    ∧ sliceBytes hdr 4 4 = be32 sid
    ∧ sliceBytes hdr 24 8 = be64 tsf := by
  intro hdr
  have l1 : (writeBytesAt buf 0 (be32 ((32 + pb + 3) / 4 % 2 ^ 32))).length = 32 := by
    rw [length_writeBytesAt _ _ _ (by simp only [length_be32, hlen]; omega), hlen]
  have l2 : (writeBytesAt (writeBytesAt buf 0
      (be32 ((32 + pb + 3) / 4 % 2 ^ 32))) 4 (be32 sid)).length = 32 := by
    rw [length_writeBytesAt _ _ _ (by simp only [length_be32, l1]; omega), l1]
  have l3 : hdr.length = 32 := by
    rw [length_writeBytesAt _ _ _ (by simp only [length_be64, l2]; omega), l2]
  refine ⟨l3, ?_, ?_, ?_⟩
  · rw [show (4 : Nat) = (be32 ((32 + pb + 3) / 4 % 2 ^ 32)).length from rfl]
    rw [sliceBytes_writeBytesAt_left _ _ _ _ _
        (by simp only [length_be32]; omega) (by simp only [l2]; omega),
      sliceBytes_writeBytesAt_left _ _ _ _ _
        (by simp only [length_be32]; omega) (by simp only [l1]; omega)]
    exact sliceBytes_writeBytesAt_self _ _ _
      (by simp only [length_be32, hlen]; omega)
  · rw [show (4 : Nat) = (be32 sid).length from rfl]
    rw [sliceBytes_writeBytesAt_left _ _ _ _ _
        (by simp only [length_be32]; omega) (by simp only [l2]; omega)]
    exact sliceBytes_writeBytesAt_self _ _ _
      (by simp only [length_be32, l1]; omega)
  · rw [show (8 : Nat) = (be64 tsf).length from rfl]
    exact sliceBytes_writeBytesAt_self _ _ _
      (by simp only [length_be64, l2]; omega)

/-- C2: every header encoded by the TX path with header_bytes 32 carries
ceil((32 + payload_bytes)/4) big-endian in bytes [0..4) (the division below
is exact ceiling, as the bounds state), the stream id big-endian in [4..8),
and the timestamp big-endian in [24..32); this holds for the streamer encoder
write_vrt_minimal and for the worker encoder write_vrt on any 32-byte header
buffer. -/
theorem C2_tx_header_encoding (sid tsf pb : Nat) (hsid : sid < 2 ^ 32)
    (htsf : tsf < 2 ^ 64) (hw : (32 + pb + 3) / 4 < 2 ^ 32) :
    (32 + pb ≤ 4 * ((32 + pb + 3) / 4) ∧ 4 * ((32 + pb + 3) / 4) < 32 + pb + 4)
    ∧ sliceBytes (write_vrt_minimal 32 sid tsf pb) 0 4 = be32 ((32 + pb + 3) / 4)
    ∧ sliceBytes (write_vrt_minimal 32 sid tsf pb) 4 4 = be32 sid
    ∧ sliceBytes (write_vrt_minimal 32 sid tsf pb) 24 8 = be64 tsf
    ∧ ∀ buf : List Nat, buf.length = 32 →
        sliceBytes (write_vrt buf 32 sid tsf pb 24) 0 4 = be32 ((32 + pb + 3) / 4)
        ∧ sliceBytes (write_vrt buf 32 sid tsf pb 24) 4 4 = be32 sid
        ∧ sliceBytes (write_vrt buf 32 sid tsf pb 24) 24 8 = be64 tsf := by
  have hmod : (32 + pb + 3) / 4 % 2 ^ 32 = (32 + pb + 3) / 4 :=
    Nat.mod_eq_of_lt hw
  refine ⟨by omega, ?_, ?_, ?_, ?_⟩
  · obtain ⟨-, h, -, -⟩ := vrt_header_slices (List.replicate 32 0) sid tsf pb
      (by simp)
    rw [write_vrt_minimal_32, h, hmod]
  · obtain ⟨-, -, h, -⟩ := vrt_header_slices (List.replicate 32 0) sid tsf pb
      (by simp)
    rw [write_vrt_minimal_32, h]
  · obtain ⟨-, -, -, h⟩ := vrt_header_slices (List.replicate 32 0) sid tsf pb
      (by simp)
    rw [write_vrt_minimal_32, h]
  · intro buf hbuf
    obtain ⟨-, h0, h4, h24⟩ := vrt_header_slices buf sid tsf pb hbuf
    exact ⟨by rw [write_vrt_32, h0, hmod], by rw [write_vrt_32, h4],
      by rw [write_vrt_32, h24]⟩

/-- C2 witness: Scenario B literally — stream_id 0x1F00, timestamp
0x0102030405060708, payload_bytes 128 give first 8 header bytes
00 00 00 28 00 00 1F 00 and bytes 24..32 equal to 01..08. -/
theorem C2_tx_header_encoding_witness :
    ((0x1F00 : Nat) < 2 ^ 32 ∧ (0x0102030405060708 : Nat) < 2 ^ 64
      ∧ (32 + 128 + 3) / 4 < 2 ^ 32)
    ∧ sliceBytes (write_vrt_minimal 32 0x1F00 0x0102030405060708 128) 0 4
        = [0x00, 0x00, 0x00, 0x28]
    ∧ sliceBytes (write_vrt_minimal 32 0x1F00 0x0102030405060708 128) 4 4
        = [0x00, 0x00, 0x1F, 0x00]
    ∧ sliceBytes (write_vrt_minimal 32 0x1F00 0x0102030405060708 128) 24 8
        = [0x01, 0x02, 0x03, 0x04, 0x05, 0x06, 0x07, 0x08] := by
  have h := C2_tx_header_encoding 0x1F00 0x0102030405060708 128
    (by decide) (by decide) (by decide)
  refine ⟨⟨by decide, by decide, by decide⟩, ?_, ?_, ?_⟩
  · rw [h.2.1]; decide
  · rw [h.2.2.1]; decide
  · rw [h.2.2.2.1]; decide

/-- C4: round-trip of the packet codec — a packet built by write_vrt
(tx_worker.cpp) over any 32-byte header buffer followed by a 4-aligned
payload decodes through parse_vrt_sc16_packet (rx_worker.hpp) to exactly the
encoded stream id, timestamp and the bitwise-identical payload. -/
theorem C4_codec_round_trip (buf : List Nat) (sid tsf : Nat)
    (payload : List Nat) (hbuf : buf.length = 32) (hsid : sid < 2 ^ 32)
    (htsf : tsf < 2 ^ 64) (hpl : payload.length % 4 = 0) :
    parse_vrt_sc16_packet 32 24 true
        (write_vrt buf 32 sid tsf payload.length 24 ++ payload)
      = some ⟨sid, true, tsf, payload.length / 4, payload⟩ := by
  obtain ⟨hl, -, hs4, hs24⟩ :=
    vrt_header_slices buf sid tsf payload.length hbuf
  have hlen : (write_vrt buf 32 sid tsf payload.length 24).length = 32 := by
    rw [write_vrt_32]; exact hl
  have hplen : (write_vrt buf 32 sid tsf payload.length 24 ++ payload).length
      = 32 + payload.length := by
    simp [hlen]
  have hsid' : load_u32_be
      (write_vrt buf 32 sid tsf payload.length 24 ++ payload) 4 = sid := by
    refine load_u32_be_of_slice _ 4 sid ?_ hsid
    rw [sliceBytes_append_left _ _ 4 4 (by omega), write_vrt_32]
    exact hs4
  have htsf' : load_u64_be
      (write_vrt buf 32 sid tsf payload.length 24 ++ payload) 24 = tsf := by
    refine load_u64_be_of_slice _ 24 tsf ?_ htsf
    rw [sliceBytes_append_left _ _ 24 8 (by omega), write_vrt_32]
    exact hs24
  have hdrop : (write_vrt buf 32 sid tsf payload.length 24 ++ payload).drop 32
      = payload := List.drop_left' hlen
  have hcond : 24 + 8 ≤ (write_vrt buf 32 sid tsf payload.length 24
      ++ payload).length := by omega
  have h32 : 32 + payload.length - 32 = payload.length := by omega
  simp only [parse_vrt_sc16_packet, hplen, h32]
  simp [show ¬ (32 + payload.length < 32) by omega,
    show 8 ≤ 32 + payload.length by omega,
    show 24 + 8 ≤ 32 + payload.length by omega,
    show ¬ (payload.length % 4 ≠ 0) by omega,
    hsid', htsf', hdrop]

/-- C4 witness: the round trip at a concrete header buffer, stream id,
timestamp and payload. -/
theorem C4_codec_round_trip_witness :
    ((List.replicate 32 9 : List Nat).length = 32 ∧ (0x1F00 : Nat) < 2 ^ 32
      ∧ (77 : Nat) < 2 ^ 64 ∧ ([5, 6, 7, 8] : List Nat).length % 4 = 0)
    ∧ parse_vrt_sc16_packet 32 24 true
        (write_vrt (List.replicate 32 9) 32 0x1F00 77
          ([5, 6, 7, 8] : List Nat).length 24 ++ [5, 6, 7, 8])
      = some ⟨0x1F00, true, 77, 1, [5, 6, 7, 8]⟩ := by
  have h := C4_codec_round_trip (List.replicate 32 9) 0x1F00 77 [5, 6, 7, 8]
    (by decide) (by decide) (by decide) (by decide)
  exact ⟨⟨by decide, by decide, by decide, by decide⟩, h⟩

-- ------------------------- RX demux worker (rx_worker.cpp) ------------------

/-- RxFraming from rx_worker.hpp. -/
inductive RxFraming where
  | Planar : RxFraming
  | Interleaved : RxFraming
  deriving Repr, DecidableEq

/-- Fields of a parsed RxPacket that the demux loop reads and rewrites
(parse fills have_tsf/tsf_ticks and leaves sob=false, eob=true; iq is the
payload). -/
structure RxPkt where
  have_tsf : Bool
  tsf_ticks : Nat
  sob : Bool
  eob : Bool
  iq : List Int
  deriving Repr, DecidableEq

/-- Worker configuration fields the demux loop uses (rx_worker.hpp). -/
structure RxWorkerConfig where
  num_channels : Nat
  pkts_per_chan : Nat
  mode : RxFraming
  deriving Repr, DecidableEq

/-- Group size N from the loop prologue of start_rx_worker:
cfg.pkts_per_chan when nonzero, else 8. -/
def groupN (cfg : RxWorkerConfig) : Nat :=
  if cfg.pkts_per_chan = 0 then 8 else cfg.pkts_per_chan

/-- Loop-carried state of the demux worker: the monotonic packet index and
the remembered block timestamp. -/
structure DemuxState where
  pkt_idx : Nat
  block_tsf_valid : Bool
  block_tsf_ticks : Nat
  deriving Repr, DecidableEq

/-- Record pushed to a channel FIFO: channel index, burst flags, timestamp
fields and payload of the delivered RxPacket. -/
structure Delivery where
  chan : Nat
  sob : Bool
  eob : Bool
  have_tsf : Bool
  tsf_ticks : Nat
  iq : List Int
  deriving Repr, DecidableEq

/-- One iteration of the per-packet body of start_rx_worker
(rx_worker.cpp lines 169-221).  The input is the parse result of the
dequeued mbuf: none models a parse_vrt failure, which frees the mbuf and
advances pkt_idx without delivering.  On success the block timestamp rule
runs first (capture at block begin, overwrite otherwise when a block
timestamp was captured), then Planar position rules set chan/sob/eob; in
Interleaved mode the packet goes to channel 0 with its own flags. -/
def demuxStep (cfg : RxWorkerConfig) (st : DemuxState) (p? : Option RxPkt) :
    DemuxState × Option Delivery :=
  match p? with
  | none => (⟨st.pkt_idx + 1, st.block_tsf_valid, st.block_tsf_ticks⟩, none)
  | some p =>
    let cn := cfg.num_channels * groupN cfg
    let bv := if st.pkt_idx % cn = 0 then p.have_tsf else st.block_tsf_valid
    let bt := if st.pkt_idx % cn = 0 then (if p.have_tsf then p.tsf_ticks else 0)
      else st.block_tsf_ticks
    let ht := if st.pkt_idx % cn = 0 then p.have_tsf
      else if st.block_tsf_valid then true else p.have_tsf
    let tt := if st.pkt_idx % cn = 0 then p.tsf_ticks
      else if st.block_tsf_valid then st.block_tsf_ticks else p.tsf_ticks
    match cfg.mode with
    | RxFraming.Planar =>
      (⟨st.pkt_idx + 1, bv, bt⟩,
        some ⟨(st.pkt_idx / groupN cfg) % cfg.num_channels,
          decide (st.pkt_idx % groupN cfg = 0),
          decide (st.pkt_idx % groupN cfg = groupN cfg - 1), ht, tt, p.iq⟩)
    | RxFraming.Interleaved =>
      (⟨st.pkt_idx + 1, bv, bt⟩, some ⟨0, p.sob, p.eob, ht, tt, p.iq⟩)

/-- The demux loop over a finite dequeued stream, from a given state; one
output slot per input packet (none = freed without delivery). -/
def demuxGo (cfg : RxWorkerConfig) (st : DemuxState) :
    List (Option RxPkt) → List (Option Delivery)
  | [] => []
  | p :: ps =>
    let r := demuxStep cfg st p
    r.2 :: demuxGo cfg r.1 ps

/-- The demux worker run from launch: pkt_idx starts at 0 and no block
timestamp is remembered. -/
def demuxRun (cfg : RxWorkerConfig) (ps : List (Option RxPkt)) :
    List (Option Delivery) :=
  demuxGo cfg ⟨0, false, 0⟩ ps

theorem demuxStep_fst_pkt_idx (cfg : RxWorkerConfig) (st : DemuxState)
    (p? : Option RxPkt) :
    (demuxStep cfg st p?).1.pkt_idx = st.pkt_idx + 1 := by
  cases p? with
  | none => rfl
  | some p => cases h : cfg.mode <;> simp [demuxStep, h]

theorem length_demuxGo (cfg : RxWorkerConfig) (st : DemuxState)
    (ps : List (Option RxPkt)) :
    (demuxGo cfg st ps).length = ps.length := by
  induction ps generalizing st with
  | nil => rfl
  | cons p ps ih => simp [demuxGo, ih]

/-- Positional behaviour of the demux loop in Planar mode: the output slot
at offset i is none exactly for a parse failure, and for a parsed packet it
is a Delivery whose channel and burst flags are functions of the absolute
packet index st.pkt_idx + i alone. -/
theorem demuxGo_planar_get (cfg : RxWorkerConfig) (hm : cfg.mode = RxFraming.Planar)
    (st : DemuxState) (ps : List (Option RxPkt)) (i : Nat) :
    (ps[i]? = some none → (demuxGo cfg st ps)[i]? = some none)
    ∧ ∀ p : RxPkt, ps[i]? = some (some p) →
        ∃ d : Delivery, (demuxGo cfg st ps)[i]? = some (some d)
          ∧ d.chan = ((st.pkt_idx + i) / groupN cfg) % cfg.num_channels
          ∧ d.sob = decide ((st.pkt_idx + i) % groupN cfg = 0)
          ∧ d.eob = decide ((st.pkt_idx + i) % groupN cfg = groupN cfg - 1)
          ∧ d.iq = p.iq := by
  induction ps generalizing st i with
  | nil => simp
  | cons q ps ih =>
    cases i with
    | zero =>
      constructor
      · intro hq
        simp only [List.getElem?_cons_zero, Option.some.injEq] at hq
        subst hq
        simp [demuxGo, demuxStep]
      · intro p hq
        simp only [List.getElem?_cons_zero, Option.some.injEq] at hq
        subst hq
        simp only [demuxGo, demuxStep, hm, List.getElem?_cons_zero,
          Option.some.injEq, Nat.add_zero]
        exact ⟨_, rfl, rfl, rfl, rfl, rfl⟩
    | succ i =>
      have hidx : (demuxStep cfg st q).1.pkt_idx = st.pkt_idx + 1 :=
        demuxStep_fst_pkt_idx cfg st q
      have ih' := ih (demuxStep cfg st q).1 i
      constructor
      · intro hq
        simp only [List.getElem?_cons_succ] at hq
        have := ih'.1 hq
        simpa [demuxGo] using this
      · intro p hq
        simp only [List.getElem?_cons_succ] at hq
        obtain ⟨d, hd, hchan, hsob, heob, hiq⟩ := ih'.2 p hq
        have heq : (demuxStep cfg st q).1.pkt_idx + i = st.pkt_idx + (i + 1) := by
          rw [hidx]; omega
        rw [heq] at hchan hsob heob
        exact ⟨d, by simpa [demuxGo] using hd, hchan, hsob, heob, hiq⟩

/-- C1: in Planar mode the packet with zero-based arrival index i is
delivered on channel (i / N) mod num_channels, with start_of_burst exactly
when i mod N = 0 and end_of_burst exactly when i mod N = N - 1, N being the
configured pkts_per_channel; the payload goes through unchanged. -/
theorem C1_planar_channel_assignment (cfg : RxWorkerConfig)
    (hm : cfg.mode = RxFraming.Planar) (hc : 0 < cfg.num_channels)
    (ps : List (Option RxPkt)) (i : Nat) (p : RxPkt)
    (hp : ps[i]? = some (some p)) :
    ∃ d : Delivery, (demuxRun cfg ps)[i]? = some (some d)
      ∧ d.chan = (i / groupN cfg) % cfg.num_channels
      ∧ (d.sob = true ↔ i % groupN cfg = 0)
      ∧ (d.eob = true ↔ i % groupN cfg = groupN cfg - 1)
      ∧ d.iq = p.iq := by
  obtain ⟨d, hd, h1, h2, h3, h4⟩ :=
    (demuxGo_planar_get cfg hm ⟨0, false, 0⟩ ps i).2 p hp
  simp only [Nat.zero_add] at h1 h2 h3
  refine ⟨d, hd, ?_, ?_, ?_, h4⟩
  · simpa using h1
  · rw [show d.sob = decide (i % groupN cfg = 0) by simpa using h2]
    simp
  · rw [show d.eob = decide (i % groupN cfg = groupN cfg - 1) by simpa using h3]
    simp

/-- C1 witness: Scenario C shape with num_channels 4, pkts_per_channel 8 —
packet 35 lands on channel 0 again ((35 / 8) mod 4 = 0) and is neither
start nor end of burst. -/
theorem C1_planar_channel_assignment_witness :
    ((List.replicate 64 (some (⟨false, 0, false, true, [7]⟩ : RxPkt)) :
        List (Option RxPkt))[35]?
      = some (some ⟨false, 0, false, true, [7]⟩))
    ∧ ∃ d : Delivery,
        (demuxRun ⟨4, 8, RxFraming.Planar⟩
          (List.replicate 64 (some ⟨false, 0, false, true, [7]⟩)))[35]?
          = some (some d)
        ∧ d.chan = 0 ∧ (d.sob = true ↔ (35 : Nat) % 8 = 0)
        ∧ (d.eob = true ↔ (35 : Nat) % 8 = 7) := by
  have hp : ((List.replicate 64 (some (⟨false, 0, false, true, [7]⟩ : RxPkt)) :
      List (Option RxPkt))[35]? = some (some ⟨false, 0, false, true, [7]⟩)) := by
    rw [List.getElem?_replicate]
    decide
  obtain ⟨d, hd, h1, h2, h3, -⟩ := C1_planar_channel_assignment
    ⟨4, 8, RxFraming.Planar⟩ rfl (by decide) _ 35 _ hp
  exact ⟨hp, d, hd, by rw [h1]; decide, h2, h3⟩

theorem demuxStep_keeps_block (cfg : RxWorkerConfig) (st : DemuxState)
    (q : Option RxPkt)
    (hn : ¬ (st.pkt_idx % (cfg.num_channels * groupN cfg) = 0)) :
    (demuxStep cfg st q).1
      = ⟨st.pkt_idx + 1, st.block_tsf_valid, st.block_tsf_ticks⟩ := by
  cases q with
  | none => rfl
  | some p => cases hmm : cfg.mode <;> simp [demuxStep, hmm, hn]

/-- Inside a block whose timestamp has been captured, every delivered packet
carries the captured timestamp, provided no packet position in the run is a
block boundary. -/
theorem demuxGo_block_inherit (cfg : RxWorkerConfig) (t0 : Nat)
    (st : DemuxState) (hv : st.block_tsf_valid = true)
    (ht : st.block_tsf_ticks = t0) (ps : List (Option RxPkt))
    (hnz : ∀ j, j < ps.length →
      ¬ ((st.pkt_idx + j) % (cfg.num_channels * groupN cfg) = 0)) :
    ∀ (i : Nat) (p : RxPkt), ps[i]? = some (some p) →
      ∃ d : Delivery, (demuxGo cfg st ps)[i]? = some (some d)
        ∧ d.have_tsf = true ∧ d.tsf_ticks = t0 := by
  induction ps generalizing st with
  | nil => intro i p h; simp at h
  | cons q ps ih =>
    intro i p hp
    have hn0 : ¬ (st.pkt_idx % (cfg.num_channels * groupN cfg) = 0) := by
      have := hnz 0 (by simp)
      simpa using this
    have hkeep := demuxStep_keeps_block cfg st q hn0
    cases i with
    | zero =>
      simp only [List.getElem?_cons_zero, Option.some.injEq] at hp
      subst hp
      cases hmm : cfg.mode with
      | Planar =>
        exact ⟨⟨(st.pkt_idx / groupN cfg) % cfg.num_channels,
          decide (st.pkt_idx % groupN cfg = 0),
          decide (st.pkt_idx % groupN cfg = groupN cfg - 1), true, t0, p.iq⟩,
          by simp [demuxGo, demuxStep, hmm, hn0, hv, ht], rfl, rfl⟩
      | Interleaved =>
        exact ⟨⟨0, p.sob, p.eob, true, t0, p.iq⟩,
          by simp [demuxGo, demuxStep, hmm, hn0, hv, ht], rfl, rfl⟩
    | succ i =>
      have ih' := ih (demuxStep cfg st q).1
        (by rw [hkeep]; exact hv) (by rw [hkeep]; exact ht)
        (by
          intro j hj
          rw [hkeep]
          have := hnz (j + 1) (by simpa using Nat.succ_lt_succ hj)
          simpa [Nat.add_assoc, Nat.add_comm 1 j] using this)
      simp only [List.getElem?_cons_succ] at hp
      obtain ⟨d, hd, h1, h2⟩ := ih' i p hp
      exact ⟨d, by simpa [demuxGo] using hd, h1, h2⟩

/-- C3 counterexample: with num_channels 2 and pkts_per_channel 1 (block of
2 packets), both packets carry their own timestamps (100 then 200), yet the
second packet is delivered with the block timestamp 100, not its own 200 —
the demux overwrites even explicit timestamps of later packets in a block. -/
theorem C3_block_timestamp_counterexample :
    (demuxRun ⟨2, 1, RxFraming.Planar⟩
      [some ⟨true, 100, false, true, []⟩, some ⟨true, 200, false, true, []⟩])[1]?
      = some (some ⟨1, true, true, true, 100, []⟩)
    ∧ (100 : Nat) ≠ 200 := by
  constructor
  · decide
  · decide

/-- C3 (amended): within one block, if the first packet carries a timestamp
then every subsequent delivered packet of the block carries that block
timestamp — whether or not it has an explicit timestamp of its own; a packet
with its own timestamp is overwritten rather than kept. -/
theorem C3_block_timestamp_inheritance (cfg : RxWorkerConfig)
    (hm : cfg.mode = RxFraming.Planar) (p0 : RxPkt)
    (h0 : p0.have_tsf = true) (ps : List (Option RxPkt))
    (hlen : ps.length + 1 ≤ cfg.num_channels * groupN cfg) :
    ∀ (i : Nat) (p : RxPkt), ps[i]? = some (some p) →
      ∃ d : Delivery, (demuxRun cfg (some p0 :: ps))[i + 1]? = some (some d)
        ∧ d.have_tsf = true ∧ d.tsf_ticks = p0.tsf_ticks := by
  intro i p hp
  have hst : (demuxStep cfg ⟨0, false, 0⟩ (some p0)).1
      = ⟨1, true, p0.tsf_ticks⟩ := by
    cases hmm : cfg.mode <;> simp [demuxStep, hmm, h0]
  have hnz : ∀ j, j < ps.length →
      ¬ (((demuxStep cfg ⟨0, false, 0⟩ (some p0)).1.pkt_idx + j)
        % (cfg.num_channels * groupN cfg) = 0) := by
    intro j hj
    rw [hst]
    have hlt : 1 + j < cfg.num_channels * groupN cfg := by omega
    rw [Nat.mod_eq_of_lt hlt]
    omega
  obtain ⟨d, hd, h1, h2⟩ := demuxGo_block_inherit cfg p0.tsf_ticks
    (demuxStep cfg ⟨0, false, 0⟩ (some p0)).1
    (by rw [hst]) (by rw [hst]) ps hnz i p hp
  refine ⟨d, ?_, h1, h2⟩
  simpa [demuxRun, demuxGo] using hd

/-- C3 witness: a two-packet block where the second packet lacks its own
timestamp and inherits the first packet's 100. -/
theorem C3_block_timestamp_inheritance_witness :
    (([some ⟨false, 200, false, true, []⟩] :
        List (Option RxPkt))[0]? = some (some ⟨false, 200, false, true, []⟩))
    ∧ ∃ d : Delivery,
        (demuxRun ⟨2, 1, RxFraming.Planar⟩
          [some ⟨true, 100, false, true, []⟩,
            some ⟨false, 200, false, true, []⟩])[0 + 1]? = some (some d)
        ∧ d.have_tsf = true ∧ d.tsf_ticks = 100 := by
  have h := C3_block_timestamp_inheritance ⟨2, 1, RxFraming.Planar⟩ rfl
    ⟨true, 100, false, true, []⟩ rfl [some ⟨false, 200, false, true, []⟩]
    (by decide) 0 ⟨false, 200, false, true, []⟩ (by decide)
  exact ⟨by decide, h⟩

/-- C10: the arrival index advances by exactly one for every dequeued
packet including parse failures — the output has one slot per input, a
malformed packet yields an undelivered slot at its own position, and a
parsed packet's channel and flags are determined by its absolute position i
alone, unaffected by any earlier malformed packets. -/
theorem C10_malformed_packet_keeps_position (cfg : RxWorkerConfig)
    (hm : cfg.mode = RxFraming.Planar) (ps : List (Option RxPkt)) (i : Nat) :
    (demuxRun cfg ps).length = ps.length
    ∧ (ps[i]? = some none → (demuxRun cfg ps)[i]? = some none)
    ∧ ∀ p : RxPkt, ps[i]? = some (some p) →
        ∃ d : Delivery, (demuxRun cfg ps)[i]? = some (some d)
          ∧ d.chan = (i / groupN cfg) % cfg.num_channels
          ∧ d.sob = decide (i % groupN cfg = 0)
          ∧ d.eob = decide (i % groupN cfg = groupN cfg - 1) := by
  refine ⟨length_demuxGo cfg ⟨0, false, 0⟩ ps, ?_, ?_⟩
  · intro hp
    exact (demuxGo_planar_get cfg hm ⟨0, false, 0⟩ ps i).1 hp
  · intro p hp
    obtain ⟨d, hd, h1, h2, h3, -⟩ :=
      (demuxGo_planar_get cfg hm ⟨0, false, 0⟩ ps i).2 p hp
    refine ⟨d, hd, ?_, ?_, ?_⟩
    · simpa using h1
    · simpa using h2
    · simpa using h3

/-- C10 witness: a malformed packet at position 0 followed by a parsed
packet at position 1 — the malformed slot stays undelivered and the parsed
packet keeps channel (1 / 8) mod 4 = 0 of its absolute position. -/
theorem C10_malformed_packet_keeps_position_witness :
    (demuxRun ⟨4, 8, RxFraming.Planar⟩
        ([none, some ⟨false, 0, false, true, [3]⟩] : List (Option RxPkt))).length = 2
    ∧ (demuxRun ⟨4, 8, RxFraming.Planar⟩
        ([none, some ⟨false, 0, false, true, [3]⟩] : List (Option RxPkt)))[0]?
        = some none
    ∧ ∃ d : Delivery,
        (demuxRun ⟨4, 8, RxFraming.Planar⟩
          ([none, some ⟨false, 0, false, true, [3]⟩] : List (Option RxPkt)))[1]?
          = some (some d)
        ∧ d.chan = 0 := by
  have h0 := C10_malformed_packet_keeps_position ⟨4, 8, RxFraming.Planar⟩ rfl
    ([none, some ⟨false, 0, false, true, [3]⟩] : List (Option RxPkt)) 0
  have h1 := C10_malformed_packet_keeps_position ⟨4, 8, RxFraming.Planar⟩ rfl
    ([none, some ⟨false, 0, false, true, [3]⟩] : List (Option RxPkt)) 1
  refine ⟨h0.1, h0.2.1 (by decide), ?_⟩
  obtain ⟨d, hd, hc, -, -⟩ := h1.2.2 ⟨false, 0, false, true, [3]⟩ (by decide)
  exact ⟨d, hd, by rw [hc]; decide⟩

-- ------------------ TX streamer (flexsdr_tx_streamer.cpp) ------------------

/-- State of flexsdr_tx_streamer plus the observable effects of its ring and
pool: spp/burst/allowPart (source allow_partial_) and num_chans are the
construction parameters, poolTailroom the tailroom of a freshly allocated
mbuf, staged the payload sample counts of the staged mbufs, ringFree the
free slots of the TX ring, enqueued/released the sample counts of mbufs
that were enqueued to the ring resp. freed back to the pool, and built a
log of every packet the streamer has built (one entry per staged packet,
never removed). -/
structure TxStreamer where
  spp : Nat
  burst : Nat
  allowPart : Bool
  num_chans : Nat
  poolTailroom : Nat
  staged : List Nat
  ringFree : Nat
  enqueued : List Nat
  released : List Nat
  built : List Nat
  deriving Repr, DecidableEq

/-- flush_ (flexsdr_tx_streamer.cpp lines 73-80): enqueue the staged burst;
rte_ring_enqueue_burst places the longest prefix that fits in the ring's
free space; every staged mbuf past that prefix is freed back to its pool;
the staging index resets to 0. -/
def flush_ (st : TxStreamer) : TxStreamer :=
  if st.staged.length = 0 then st
  else
    let enq := min st.ringFree st.staged.length
    { st with
      staged := [],
      ringFree := st.ringFree - enq,
      enqueued := st.enqueued ++ st.staged.take enq,
      released := st.released ++ st.staged.drop enq }

/-- send (flexsdr_tx_streamer.cpp lines 82-142) with a non-null ring and
pool: reject empty buffers, wrong channel counts, nsamps different from spp
when partial sends are disallowed, or a pool element too small for header
plus payload; otherwise build one packet of nsamps samples, stage it, flush
when the staged burst is full, and return nsamps. -/
def send (st : TxStreamer) (nbuffs nsamps : Nat) : Nat × TxStreamer :=
  if nbuffs = 0 ∨ nsamps = 0 then (0, st)
  else if ¬ (nbuffs = st.num_chans) then (0, st)
  else if st.allowPart = false ∧ ¬ (nsamps = st.spp) then (0, st)
  else if st.poolTailroom < 32 + nsamps * 4 then (0, st)
  else
    if (st.staged ++ [nsamps]).length = st.burst then
      (nsamps, flush_ { st with
        staged := st.staged ++ [nsamps],
        built := st.built ++ [nsamps] })
    else
      (nsamps, { st with
        staged := st.staged ++ [nsamps],
        built := st.built ++ [nsamps] })

theorem flush_built (st : TxStreamer) : (flush_ st).built = st.built := by
  unfold flush_
  split <;> rfl

theorem send_rejected (st : TxStreamer) (nsamps : Nat)
    (hra : st.allowPart = false) (hne : ¬ (nsamps = st.spp)) :
    send st 1 nsamps = (0, st) := by
  unfold send
  rcases Nat.eq_zero_or_pos nsamps with h0 | h0
  · simp [h0]
  · rw [if_neg (by omega)]
    by_cases hch : (1 : Nat) = st.num_chans
    · rw [if_neg (by simpa using hch), if_pos ⟨hra, hne⟩]
    · rw [if_pos (by simpa using hch)]

theorem send_accepted (st : TxStreamer) (nsamps : Nat)
    (hch : st.num_chans = 1) (hn : 0 < nsamps)
    (hroom : 32 + nsamps * 4 ≤ st.poolTailroom)
    (hacc : st.allowPart = true ∨ nsamps = st.spp) :
    (send st 1 nsamps).1 = nsamps
    ∧ (send st 1 nsamps).2.built = st.built ++ [nsamps] := by
  unfold send
  rw [if_neg (by omega), if_neg (by simp [hch]), if_neg ?hgate,
    if_neg (by omega)]
  case hgate =>
    rcases hacc with h | h
    · simp [h]
    · simp [h]
  by_cases hb : (st.staged ++ [nsamps]).length = st.burst
  · rw [if_pos hb]
    exact ⟨rfl, by rw [flush_built]⟩
  · rw [if_neg hb]
    exact ⟨rfl, rfl⟩

/-- C5 counterexample: with allow_partial false and spp 1024, a send of
2048 samples — a multiple of spp — is rejected with 0 accepted samples:
the code accepts only nsamps equal to spp, not any multiple of it. -/
theorem C5_send_multiple_counterexample :
    (2048 : Nat) % 1024 = 0
    ∧ (send ⟨1024, 32, false, 1, 100000, [], 1000, [], [], []⟩ 1 2048).1 = 0 := by
  constructor
  · decide
  · have h := send_rejected ⟨1024, 32, false, 1, 100000, [], 1000, [], [], []⟩
      2048 rfl (by decide)
    rw [h]

/-- C5 (amended): with allow_partial false, send accepts a call exactly when
nsamps_per_buff equals spp (any other count, multiple of spp or not,
returns 0 accepted samples); with allow_partial true any nonzero count is
accepted, and a call builds exactly one packet of nsamps_per_buff samples
(1500 samples give one packet of 1500 samples, not packets of 1024 and
476). -/
theorem C5_send_spp_gate (st : TxStreamer) (nsamps : Nat)
    (hch : st.num_chans = 1) (hn : 0 < nsamps)
    (hroom : 32 + nsamps * 4 ≤ st.poolTailroom) :
    (send st 1 nsamps).1
      = (if st.allowPart = true ∨ nsamps = st.spp then nsamps else 0)
    ∧ (send st 1 nsamps).2.built
      = st.built ++ (if st.allowPart = true ∨ nsamps = st.spp
          then [nsamps] else []) := by
  by_cases hacc : st.allowPart = true ∨ nsamps = st.spp
  · rw [if_pos hacc, if_pos hacc]
    exact send_accepted st nsamps hch hn hroom hacc
  · push_neg at hacc
    have h := send_rejected st nsamps
      (by rcases hb : st.allowPart with _ | _
          · rfl
          · exact absurd hb hacc.1) hacc.2
    rw [if_neg (by push_neg; exact hacc), if_neg (by push_neg; exact hacc), h]
    simp

/-- C5 witness: Scenario E inputs — spp 1024, nsamps 1500: rejected with 0
when allow_partial is false, accepted as a single packet of 1500 samples
when allow_partial is true. -/
theorem C5_send_spp_gate_witness :
    ((⟨1024, 32, false, 1, 100000, [], 1000, [], [], []⟩ :
        TxStreamer).num_chans = 1
      ∧ (0 : Nat) < 1500 ∧ 32 + 1500 * 4 ≤ 100000)
    ∧ (send ⟨1024, 32, false, 1, 100000, [], 1000, [], [], []⟩ 1 1500).1 = 0
    ∧ (send ⟨1024, 32, true, 1, 100000, [], 1000, [], [], []⟩ 1 1500).1 = 1500
    ∧ (send ⟨1024, 32, true, 1, 100000, [], 1000, [], [], []⟩ 1 1500).2.built
        = [1500] := by
  have hf := C5_send_spp_gate ⟨1024, 32, false, 1, 100000, [], 1000, [], [], []⟩
    1500 rfl (by decide) (by decide)
  have ht := C5_send_spp_gate ⟨1024, 32, true, 1, 100000, [], 1000, [], [], []⟩
    1500 rfl (by decide) (by decide)
  refine ⟨⟨rfl, by decide, by decide⟩, ?_, ?_, ?_⟩
  · rw [hf.1]; decide
  · rw [ht.1]; decide
  · rw [ht.2]; decide

/-- C6 counterexample: burst size 1 and a full ring (0 free slots): send
stages one packet of 4 samples, the flush enqueues nothing and releases
that packet, yet send returns 4 — the return value counts samples of
released packets, not only of enqueued ones. -/
theorem C6_flush_counterexample :
    (send ⟨4, 1, true, 1, 1000, [], 0, [], [], []⟩ 1 4).1 = 4
    ∧ (send ⟨4, 1, true, 1, 1000, [], 0, [], [], []⟩ 1 4).2.enqueued = []
    ∧ (send ⟨4, 1, true, 1, 1000, [], 0, [], [], []⟩ 1 4).2.released = [4]
    ∧ (4 : Nat) ≠ 0 := by
  refine ⟨?_, ?_, ?_, by decide⟩ <;> decide

/-- C6 (amended): when a flush partially enqueues, the enqueued packets are
exactly the staged prefix that fit in the ring and the released packets are
exactly the failed suffix (no leak, nothing else released); the send call's
return value, however, is nsamps_per_buff for every accepted packet
regardless of ring state — it does not subtract samples of packets released
at flush time. -/
theorem C6_flush_releases_failed_suffix (st : TxStreamer) (nsamps : Nat)
    (hch : st.num_chans = 1) (hn : 0 < nsamps)
    (hroom : 32 + nsamps * 4 ≤ st.poolTailroom)
    (hacc : st.allowPart = true ∨ nsamps = st.spp) :
    ((flush_ st).enqueued
        = st.enqueued ++ st.staged.take (min st.ringFree st.staged.length)
      ∧ (flush_ st).released
        = st.released ++ st.staged.drop (min st.ringFree st.staged.length)
      ∧ st.staged.take (min st.ringFree st.staged.length)
          ++ st.staged.drop (min st.ringFree st.staged.length) = st.staged)
    ∧ (send st 1 nsamps).1 = nsamps := by
  refine ⟨⟨?_, ?_, List.take_append_drop _ _⟩,
    (send_accepted st nsamps hch hn hroom hacc).1⟩
  · unfold flush_
    by_cases h : st.staged.length = 0
    · rw [if_pos h]
      simp [List.length_eq_zero.mp h]
    · rw [if_neg h]
  · unfold flush_
    by_cases h : st.staged.length = 0
    · rw [if_pos h]
      simp [List.length_eq_zero.mp h]
    · rw [if_neg h]

/-- C6 witness: a flush with 2 staged packets and 1 free ring slot
enqueues the first packet and releases exactly the second, and a send with
a full ring still returns its nsamps. -/
theorem C6_flush_releases_failed_suffix_witness :
    ((⟨4, 8, true, 1, 1000, [10, 20], 1, [], [], []⟩ :
        TxStreamer).num_chans = 1
      ∧ (0 : Nat) < 4 ∧ 32 + 4 * 4 ≤ 1000)
    ∧ (flush_ ⟨4, 8, true, 1, 1000, [10, 20], 1, [], [], []⟩).enqueued = [10]
    ∧ (flush_ ⟨4, 8, true, 1, 1000, [10, 20], 1, [], [], []⟩).released = [20]
    ∧ (send ⟨4, 8, true, 1, 1000, [10, 20], 1, [], [], []⟩ 1 4).1 = 4 := by
  have h := C6_flush_releases_failed_suffix
    ⟨4, 8, true, 1, 1000, [10, 20], 1, [], [], []⟩ 4 rfl (by decide)
    (by decide) (Or.inl rfl)
  refine ⟨⟨rfl, by decide, by decide⟩, ?_, ?_, h.2⟩
  · rw [h.1.1]; decide
  · rw [h.1.2.1]; decide

-- -------------- ring creation on the primary (flexsdr_primary.cpp) ---------

/-- Error codes of the shared-memory runtime that create_ring_ inspects. -/
inductive RteErrno where
  | EEXIST : RteErrno
  | ENOMEM : RteErrno
  deriving Repr, DecidableEq

/-- A named ring object in the shared-memory registry. -/
structure RteRing where
  name : String
  capacity : Nat
  deriving Repr, DecidableEq

/-- rte_ring_lookup: resolve a name in the process-wide registry. -/
def rte_ring_lookup (reg : List RteRing) (nm : String) : Option RteRing :=
  reg.find? (fun r => r.name == nm)

/-- rte_ring_create: fails with EEXIST when the name is already registered,
otherwise registers and returns a new ring of the requested capacity. -/
def rte_ring_create (reg : List RteRing) (nm : String) (size : Nat) :
    List RteRing × Except RteErrno RteRing :=
  match rte_ring_lookup reg nm with
  | some _ => (reg, Except.error RteErrno.EEXIST)
  | none => (⟨nm, size⟩ :: reg, Except.ok ⟨nm, size⟩)

/-- FlexSDRPrimary::create_ring_ (flexsdr_primary.cpp lines 142-164): try to
create; when creation fails with EEXIST, look the name up and return the
pre-existing ring as success; any other outcome is failure (none). -/
def create_ring_ (reg : List RteRing) (nm : String) (size : Nat) :
    List RteRing × Option RteRing :=
  match rte_ring_create reg nm size with
  | (reg2, Except.ok r) => (reg2, some r)
  | (reg2, Except.error e) =>
    if e = RteErrno.EEXIST then
      match rte_ring_lookup reg2 nm with
      | some r => (reg2, some r)
      | none => (reg2, none)
    else (reg2, none)

/-- C7: creating a ring whose name already exists is not a fatal error:
create_ring_ succeeds and returns exactly the pre-existing ring that a
lookup of that name resolves to, leaving the registry unchanged. -/
theorem C7_create_ring_reuses_existing (reg : List RteRing) (nm : String)
    (size : Nat) (r : RteRing) (h : rte_ring_lookup reg nm = some r) :
    create_ring_ reg nm size = (reg, some r) := by
  simp [create_ring_, rte_ring_create, h]

/-- C7 witness: re-creating "rx0" (present with capacity 512) with a
different requested capacity still succeeds and yields the existing ring. -/
theorem C7_create_ring_reuses_existing_witness :
    rte_ring_lookup [⟨"rx0", 512⟩] "rx0" = some ⟨"rx0", 512⟩
    ∧ create_ring_ [⟨"rx0", 512⟩] "rx0" 1024 = ([⟨"rx0", 512⟩], some ⟨"rx0", 512⟩) := by
  have h : rte_ring_lookup [⟨"rx0", 512⟩] "rx0" = some ⟨"rx0", 512⟩ := by
    decide
  exact ⟨h, C7_create_ring_reuses_existing _ _ 1024 _ h⟩

-- ---------------- name materialization (config_params.cpp) -----------------

/-- RingSpec from the typed configuration. -/
structure RingSpec where
  name : String
  size : Nat
  deriving Repr, DecidableEq

/-- PrimaryConfig::materialize_name (config_params.cpp lines 201-205): the
source applies no prefix or suffix; the YAML provides full object names and
the function returns its argument unchanged. -/
def materialize_name (base : String) : String := base

/-- The materialized_tx_rings / materialized_rx_rings /
materialized_interconnect_rings loop body: materialize each name and
substitute the default ring size for zero sizes. -/
def materialized_rings (default_ring_size : Nat) (rings : List RingSpec) :
    List RingSpec :=
  rings.map (fun r =>
    ⟨materialize_name r.name, if r.size = 0 then default_ring_size else r.size⟩)

/-- C8 counterexample: Scenario A is false on the code — materialize_name
returns the base name unchanged, so base "tx_ch1" materializes to "tx_ch1",
not to the role-prefixed "tx_tx_ch1" (and "rx_in" not to "tx_rx_in"). -/
theorem C8_materialize_name_counterexample :
    materialize_name "tx_ch1" = "tx_ch1"
    ∧ ¬ (materialize_name "tx_ch1" = "tx_tx_ch1")
    ∧ materialize_name "rx_in" = "rx_in"
    ∧ ¬ (materialize_name "rx_in" = "tx_rx_in") := by
  exact ⟨rfl, by decide, rfl, by decide⟩

/-- C8 (amended): the name materialization used when the primary creates its
rings is the literal-name policy: it returns every base name unchanged (no
role prefix, no separator), so both sides of any name agreement resolve the
byte-identical base string; materialization only substitutes the default
ring size for unspecified sizes and never alters the name list. -/
theorem C8_materialize_name_identity (d : Nat) (rings : List RingSpec) :
    (materialized_rings d rings).map RingSpec.name = rings.map RingSpec.name
    ∧ ∀ b : String, materialize_name b = b := by
  constructor
  · induction rings with
    | nil => rfl
    | cons r rs ih =>
      simp only [materialized_rings, materialize_name, List.map_cons] at ih ⊢
      rw [ih]
  · intro b
    rfl

-- ------------------- EAL argument building (eal_bootstrap.cpp) -------------

/-- The cfg_.eal fields that EalBootstrap::build_args reads. -/
structure EalConf where
  file_prefix : String
  huge_dir : String
  socket_mem : String
  iova : String
  no_pci : Bool
  lcores : Option String
  main_lcore : Option Int
  socket_limit : Option String
  deriving Repr, DecidableEq

/-- Flags pushed for the hugepage file prefix (push_flag_kv when the string
is nonempty). -/
def chunkFP (cfg : EalConf) : List String :=
  if cfg.file_prefix = "" then [] else ["--file-prefix", cfg.file_prefix]

/-- Flags pushed for the hugepage directory. -/
def chunkHD (cfg : EalConf) : List String :=
  if cfg.huge_dir = "" then [] else ["--huge-dir", cfg.huge_dir]

/-- Flags pushed for the per-socket memory string. -/
def chunkSM (cfg : EalConf) : List String :=
  if cfg.socket_mem = "" then [] else ["--socket-mem", cfg.socket_mem]

/-- Flags pushed for the IOVA (IO) mode. -/
def chunkIOVA (cfg : EalConf) : List String :=
  if cfg.iova = "" then [] else ["--iova", cfg.iova]

/-- Flag pushed when PCI scanning is disabled. -/
def chunkNP (cfg : EalConf) : List String :=
  if cfg.no_pci then ["--no-pci"] else []

/-- Flags pushed for the optional lcore list. -/
def chunkLC (cfg : EalConf) : List String :=
  match cfg.lcores with
  | some l => if l = "" then [] else ["--lcores", l]
  | none => []

/-- Flags pushed for the optional main lcore (only when nonnegative). -/
def chunkML (cfg : EalConf) : List String :=
  match cfg.main_lcore with
  | some m => if 0 ≤ m then ["--main-lcore", toString m] else []
  | none => []

/-- Flags pushed for the optional socket limit. -/
def chunkSL (cfg : EalConf) : List String :=
  match cfg.socket_limit with
  | some s => if s = "" then [] else ["--socket-limit", s]
  | none => []

/-- EalBootstrap::build_args (eal_bootstrap.cpp lines 32-81): argv[0] is the
program name, then each configured field is pushed in the fixed source
order (file-prefix, huge-dir, socket-mem, iova, no-pci, lcores, main-lcore,
socket-limit), skipping empty strings, absent options and negative main
lcores; the caller-supplied extra flags are appended verbatim at the end.
No proc-type selector is generated here. -/
def build_args (prog : String) (cfg : EalConf) (extra : List String) :
    List String :=
  [prog] ++ chunkFP cfg ++ chunkHD cfg ++ chunkSM cfg ++ chunkIOVA cfg
    ++ chunkNP cfg ++ chunkLC cfg ++ chunkML cfg ++ chunkSL cfg ++ extra

/-- A concrete configured EAL block used to exercise build_args. -/
def ealConfEx : EalConf :=
  ⟨"fs", "/mnt/huge", "1024,1024", "va", true, some "0-3", none, none⟩

/-- C9 counterexample: on a fully configured EAL block with no extra flags,
build_args emits the configured flags in order but no --proc-type selector
of either role: the selector only ever enters through the caller's extra
strings. -/
theorem C9_build_args_counterexample :
    build_args "flexsdr" ealConfEx []
      = ["flexsdr", "--file-prefix", "fs", "--huge-dir", "/mnt/huge",
         "--socket-mem", "1024,1024", "--iova", "va", "--no-pci",
         "--lcores", "0-3"]
    ∧ ¬ ("--proc-type=primary" ∈ build_args "flexsdr" ealConfEx [])
    ∧ ¬ ("--proc-type=secondary" ∈ build_args "flexsdr" ealConfEx []) := by
  refine ⟨by decide, by decide, by decide⟩

/-- C9 (amended): build_args produces the ordered vector that starts with
the program name, encodes each configured field (hugepage file prefix,
huge directory, per-socket memory, IOVA mode, optional no-PCI flag,
optional core list, main core and socket limit) as adjacent flag/value
pairs in the fixed source order, and appends the caller's extra strings
verbatim at the end; the --proc-type=primary|secondary selector is not
produced by build_args — it is present exactly when the caller passes it
among the extra strings. -/
theorem C9_build_args_encoding (prog : String) (cfg : EalConf)
    (extra : List String) :
    build_args prog cfg extra = build_args prog cfg [] ++ extra
    ∧ (build_args prog cfg extra).head? = some prog
    ∧ (∀ e, e ∈ extra → e ∈ build_args prog cfg extra)
    ∧ (cfg.no_pci = true → "--no-pci" ∈ build_args prog cfg extra)
    ∧ (¬ ( cfg.file_prefix = "") → ∃ u v, build_args prog cfg extra
        = u ++ ["--file-prefix", cfg.file_prefix] ++ v)
    ∧ (¬ (cfg.huge_dir = "") → ∃ u v, build_args prog cfg extra
        = u ++ ["--huge-dir", cfg.huge_dir] ++ v)
    ∧ (¬ (cfg.socket_mem = "") → ∃ u v, build_args prog cfg extra
        = u ++ ["--socket-mem", cfg.socket_mem] ++ v)
    ∧ (¬ (cfg.iova = "") → ∃ u v, build_args prog cfg extra
        = u ++ ["--iova", cfg.iova] ++ v)
    ∧ (∀ l, cfg.lcores = some l → ¬ (l = "") → ∃ u v,
        build_args prog cfg extra = u ++ ["--lcores", l] ++ v)
    ∧ (∀ m : Int, cfg.main_lcore = some m → 0 ≤ m → ∃ u v,
        build_args prog cfg extra = u ++ ["--main-lcore", toString m] ++ v)
    ∧ (∀ s, cfg.socket_limit = some s → ¬ (s = "") → ∃ u v,
        build_args prog cfg extra = u ++ ["--socket-limit", s] ++ v) := by
  refine ⟨?_, ?_, ?_, ?_, ?_, ?_, ?_, ?_, ?_, ?_, ?_⟩
  · simp [build_args]
  · simp [build_args]
  · intro e he
    simp [build_args, he]
  · intro h
    simp [build_args, chunkNP, h]
  · intro h
    refine ⟨[prog], chunkHD cfg ++ chunkSM cfg ++ chunkIOVA cfg ++ chunkNP cfg
      ++ chunkLC cfg ++ chunkML cfg ++ chunkSL cfg ++ extra, ?_⟩
    simp [build_args, chunkFP, h, List.append_assoc]
  · intro h
    refine ⟨[prog] ++ chunkFP cfg, chunkSM cfg ++ chunkIOVA cfg ++ chunkNP cfg
      ++ chunkLC cfg ++ chunkML cfg ++ chunkSL cfg ++ extra, ?_⟩
    simp [build_args, chunkHD, h, List.append_assoc]
  · intro h
    refine ⟨[prog] ++ chunkFP cfg ++ chunkHD cfg, chunkIOVA cfg ++ chunkNP cfg
      ++ chunkLC cfg ++ chunkML cfg ++ chunkSL cfg ++ extra, ?_⟩
    simp [build_args, chunkSM, h, List.append_assoc]
  · intro h
    refine ⟨[prog] ++ chunkFP cfg ++ chunkHD cfg ++ chunkSM cfg,
      chunkNP cfg ++ chunkLC cfg ++ chunkML cfg ++ chunkSL cfg ++ extra, ?_⟩
    simp [build_args, chunkIOVA, h, List.append_assoc]
  · intro l hl h
    refine ⟨[prog] ++ chunkFP cfg ++ chunkHD cfg ++ chunkSM cfg
      ++ chunkIOVA cfg ++ chunkNP cfg,
      chunkML cfg ++ chunkSL cfg ++ extra, ?_⟩
    simp [build_args, chunkLC, hl, h, List.append_assoc]
  · intro m hm h
    refine ⟨[prog] ++ chunkFP cfg ++ chunkHD cfg ++ chunkSM cfg
      ++ chunkIOVA cfg ++ chunkNP cfg ++ chunkLC cfg,
      chunkSL cfg ++ extra, ?_⟩
    simp [build_args, chunkML, hm, h, List.append_assoc]
  · intro s hs h
    refine ⟨[prog] ++ chunkFP cfg ++ chunkHD cfg ++ chunkSM cfg
      ++ chunkIOVA cfg ++ chunkNP cfg ++ chunkLC cfg ++ chunkML cfg,
      extra, ?_⟩
    simp [build_args, chunkSL, hs, h, List.append_assoc]

/-- C9 witness: on the concrete configured block, the extra string
"--proc-type=secondary" is appended verbatim at the end, the vector starts
with the program name, and the configured no-PCI flag and file prefix pair
are present. -/
theorem C9_build_args_encoding_witness :
    build_args "flexsdr" ealConfEx ["--proc-type=secondary"]
      = build_args "flexsdr" ealConfEx [] ++ ["--proc-type=secondary"]
    ∧ (build_args "flexsdr" ealConfEx ["--proc-type=secondary"]).head?
        = some "flexsdr"
    ∧ "--no-pci" ∈ build_args "flexsdr" ealConfEx ["--proc-type=secondary"]
    ∧ ∃ u v, build_args "flexsdr" ealConfEx ["--proc-type=secondary"]
        = u ++ ["--file-prefix", "fs"] ++ v := by
  have h := C9_build_args_encoding "flexsdr" ealConfEx ["--proc-type=secondary"]
  exact ⟨h.1, h.2.1, h.2.2.2.1 rfl, h.2.2.2.2.1 (by decide)⟩

end FlexSDR
